import Mathlib

/-!
Shallow embedding of the scanner core of `file_search_gui.py` (the
`get_owner` and `search_files` functions) and proofs of the spec claims.

Modelling choices:
* Timestamps and byte sizes are rationals (`ℚ`): Python floats at the
  values the program manipulates (epoch seconds, byte counts, divisions
  by powers of two) behave like exact rational arithmetic.
* A fallible OS read (`os.path.getctime`, `os.path.getsize`,
  `pwd.getpwuid(os.stat(p).st_uid).pw_name`) is an `Option`: `none`
  means the call raises.
* `os.walk` over a valid root is modelled by the root carrying the list
  of regular files it reaches, in traversal order; an invalid root
  (`not os.path.isdir(path)`) carries `isDir = false`.
* `platform.system()` and the availability of the `pwd` module are
  fields of an environment record, as is `time.time()` (`now`).
* `datetime.datetime.fromtimestamp(c).strftime(...)` never raises for
  the timestamps in play; it is passed in as a string-valued function.
-/

/-- The ambient environment of one scan: the value of `platform.system()`,
whether `import pwd` succeeded, and the value of `time.time()`. -/
structure Env where
  platform_system : String
  pwd_available : Bool
  now : ℚ
deriving Repr, DecidableEq

/-- One regular file reached by the walk: its joined path, the result of
`os.path.getctime` (`none` = raises), the result of `os.path.getsize`
(`none` = raises), and the result of the Unix owner lookup
`pwd.getpwuid(os.stat(filepath).st_uid).pw_name` (`none` = raises,
e.g. a `KeyError` for a uid absent from the passwd database). -/
structure FileInfo where
  filepath : String
  c_time : Option ℚ
  f_size : Option ℚ
  owner_lookup : Option String
deriving Repr, DecidableEq

/-- One entry of the `paths` argument: the path string, whether
`os.path.isdir(path)` holds, and the regular files `os.walk` reaches
under it, in traversal order. -/
structure Root where
  path : String
  isDir : Bool
  files : List FileInfo
deriving Repr, DecidableEq

/-- One result tuple
`(filepath, c_time_str, owner, displayed_size, c_time)` appended to
`results` by `search_files`. -/
structure FileRecord where
  filepath : String
  c_time_str : String
  owner : String
  displayed_size : ℚ
  c_time : ℚ
deriving Repr, DecidableEq

/-- `get_owner` (file_search_gui.py lines 19-31). On a non-Windows
platform with `pwd` importable it performs the fallible uid lookup; the
other two branches return fixed placeholder strings and cannot raise. -/
def get_owner (env : Env) (file : FileInfo) : Option String :=
  if env.platform_system ≠ "Windows" then
    if env.pwd_available then file.owner_lookup
    else some "Unknown-Owner-UNIX"
  else some "Unknown-Owner-Windows"

/-- The dict `unit_conversion = {"B": 1, "KB": 1024, "MB": 1024**2,
"GB": 1024**3}` (line 42); `none` models a `KeyError` on subscripting. -/
def unit_conversion (size_unit : String) : Option ℚ :=
  if size_unit = "B" then some 1
  else if size_unit = "KB" then some 1024
  else if size_unit = "MB" then some (1024 ^ 2)
  else if size_unit = "GB" then some (1024 ^ 3)
  else none

/-- `unit_conversion.get(size_unit, 1)` (line 43): lookup with default 1. -/
def unit_conversion_get (size_unit : String) : ℚ :=
  (unit_conversion size_unit).getD 1

/-- The body of the `try` block of `search_files` (lines 54-64) for one
file: read `c_time`, test the age guard, read `f_size`, test the size
guard, resolve the owner, format the time, divide by
`unit_conversion[size_unit]`, and build the tuple. Any raising step
(`none`) makes the whole file contribute nothing (`except: pass`);
a failed guard also contributes nothing (no exception). -/
def process_file (env : Env) (fmt : ℚ → String)
    (cutoff_time threshold_in_bytes : ℚ) (size_unit : String)
    (file : FileInfo) : Option FileRecord :=
  match file.c_time with
  | none => none
  | some c_time =>
    if c_time ≥ cutoff_time then
      match file.f_size with
      | none => none
      | some f_size =>
        if f_size ≥ threshold_in_bytes then
          match get_owner env file with
          | none => none
          | some owner =>
            match unit_conversion size_unit with
            | none => none
            | some mult =>
              some ⟨file.filepath, fmt c_time, owner, f_size / mult, c_time⟩
        else none
    else none

/-- `search_files` (file_search_gui.py lines 33-65): convert the
threshold to bytes, compute the cutoff, then loop over `paths` skipping
non-directories, and over each valid root's files, appending one tuple
per file that survives `process_file`. The two nested `for` loops with
`results.append` are rendered as left folds over an accumulator. -/
def search_files (env : Env) (fmt : ℚ → String) (paths : List Root)
    (days_threshold : ℕ) (size_threshold : ℚ) (size_unit : String) :
    List FileRecord :=
  let threshold_in_bytes := size_threshold * unit_conversion_get size_unit
  let cutoff_time := env.now - ((days_threshold : ℚ) * 24 * 3600)
  paths.foldl (fun results path =>
    if path.isDir then
      path.files.foldl (fun acc file =>
        match process_file env fmt cutoff_time threshold_in_bytes
            size_unit file with
        | some rec => acc ++ [rec]
        | none => acc) results
    else results) []

/-! ### Structural characterization of `search_files` -/

/-- The records one valid root contributes: `filterMap` of `process_file`
over its files, in traversal order. -/
def scan_root (env : Env) (fmt : ℚ → String)
    (cutoff_time threshold_in_bytes : ℚ) (size_unit : String)
    (r : Root) : List FileRecord :=
  if r.isDir then
    r.files.filterMap
      (process_file env fmt cutoff_time threshold_in_bytes size_unit)
  else []

/-! ### Concrete fixtures

A fixed clock, a trivial time formatter, a Unix environment with the
`pwd` module available (the common deployment of this program), a
Windows environment, and the `/data` directory of the spec's scenario
(`a.txt` 3 days old and 2048 bytes, `b.txt` 30 days old and 2048
bytes), plus files exercising the failure paths. -/

def now0 : ℚ := 100 * 86400

def fmt0 : ℚ → String := fun _ => ""

def env0 : Env := ⟨"Linux", true, now0⟩

def envWin : Env := ⟨"Windows", false, now0⟩

def aTxt : FileInfo := ⟨"/data/a.txt", some (now0 - 3 * 86400), some 2048, some "alice"⟩

def bTxt : FileInfo := ⟨"/data/b.txt", some (now0 - 30 * 86400), some 2048, some "alice"⟩

def dataRoot : Root := ⟨"/data", true, [aTxt, bTxt]⟩

/-- A file whose metadata reads succeed and pass a 7-day / 1 KB filter,
but whose uid has no passwd entry: `pwd.getpwuid` raises `KeyError`. -/
def cTxt : FileInfo := ⟨"/data/c.txt", some (now0 - 3 * 86400), some 2048, none⟩

/-- A second such file, 1 day old and 4096 bytes. -/
def dTxt : FileInfo := ⟨"/data/d.txt", some (now0 - 1 * 86400), some 4096, none⟩

/-- A file that vanished between enumeration and stat: both
`os.path.getctime` and `os.path.getsize` raise. -/
def ghostTxt : FileInfo := ⟨"/data/ghost.txt", none, none, none⟩

/-- A file sitting exactly on both boundaries of a
`maxAgeDays = 7`, `minSize = 1`, `unit = KB` scan at `now0`. -/
def edgeTxt : FileInfo :=
  ⟨"/data/edge.txt", some (now0 - ((7 : ℕ) : ℚ) * 24 * 3600),
    some ((1 : ℚ) * 1024), none⟩

def badRoot : Root := ⟨"/definitely/not/a/dir", false, [aTxt]⟩

/-- The single record the spec's scenario scan must return. -/
def recA : FileRecord := ⟨"/data/a.txt", "", "alice", 2, now0 - 3 * 86400⟩

/-! ### Fold lemmas -/

lemma foldl_files_eq (env : Env) (fmt : ℚ → String)
    (ct tb : ℚ) (u : String) :
    ∀ (files : List FileInfo) (acc : List FileRecord),
      files.foldl (fun acc file =>
        match process_file env fmt ct tb u file with
        | some rec => acc ++ [rec]
        | none => acc) acc
      = acc ++ files.filterMap (process_file env fmt ct tb u) := by
  intro files
  induction files with
  | nil => intro acc; simp
  | cons f fs ih =>
    intro acc
    cases h : process_file env fmt ct tb u f <;>
      simp [List.filterMap_cons, h, ih]

lemma foldl_roots_eq (env : Env) (fmt : ℚ → String)
    (ct tb : ℚ) (u : String) :
    ∀ (paths : List Root) (acc : List FileRecord),
      paths.foldl (fun results path =>
        if path.isDir then
          path.files.foldl (fun acc file =>
            match process_file env fmt ct tb u file with
            | some rec => acc ++ [rec]
            | none => acc) results
        else results) acc
      = acc ++ paths.flatMap (scan_root env fmt ct tb u) := by
  intro paths
  induction paths with
  | nil => intro acc; simp
  | cons r rs ih =>
    intro acc
    rw [List.foldl_cons, List.flatMap_cons]
    simp only [scan_root]
    by_cases hr : r.isDir
    · simp only [if_pos hr]
      rw [foldl_files_eq, ih, List.append_assoc]
    · simp only [if_neg hr]
      rw [ih, List.nil_append]

/-- `search_files` is the concatenation, in input order, of the
per-root `filterMap`s, with invalid roots contributing nothing. -/
lemma search_files_eq_flatMap (env : Env) (fmt : ℚ → String)
    (paths : List Root) (d : ℕ) (s : ℚ) (u : String) :
    search_files env fmt paths d s u
      = paths.flatMap (scan_root env fmt
          (env.now - ((d : ℚ) * 24 * 3600))
          (s * unit_conversion_get u) u) := by
  unfold search_files
  simpa using foldl_roots_eq env fmt
    (env.now - ((d : ℚ) * 24 * 3600)) (s * unit_conversion_get u) u paths []

/-- Inversion for `process_file`: exactly when and what it emits. -/
lemma process_file_eq_some_iff (env : Env) (fmt : ℚ → String)
    (ct tb : ℚ) (u : String) (file : FileInfo) (rec : FileRecord) :
    process_file env fmt ct tb u file = some rec ↔
      ∃ c sz o m, file.c_time = some c ∧ c ≥ ct ∧
        file.f_size = some sz ∧ sz ≥ tb ∧
        get_owner env file = some o ∧ unit_conversion u = some m ∧
        rec = ⟨file.filepath, fmt c, o, sz / m, c⟩ := by
  unfold process_file
  cases hc : file.c_time with
  | none => simp
  | some c =>
    by_cases hct : c ≥ ct
    · cases hs : file.f_size with
      | none => simp [hct]
      | some sz =>
        by_cases htb : sz ≥ tb
        · cases ho : get_owner env file with
          | none => simp [hct, htb]
          | some o =>
            cases hm : unit_conversion u with
            | none => simp [hct, htb]
            | some m =>
              simp only [hct, if_true, htb, ho, hm]
              constructor
              · rintro h
                exact ⟨c, sz, o, m, rfl, hct, rfl, htb, rfl, rfl,
                  (Option.some_inj.mp h).symm⟩
              · rintro ⟨c2, sz2, o2, m2, hc2, _, hs2, _, ho2, hm2, hrec⟩
                obtain rfl : c = c2 := Option.some_inj.mp hc2
                obtain rfl : sz = sz2 := Option.some_inj.mp hs2
                obtain rfl : o = o2 := Option.some_inj.mp ho2
                obtain rfl : m = m2 := Option.some_inj.mp hm2
                simp [hrec]
        · simp only [hct, if_true, htb, if_false]
          constructor
          · rintro ⟨⟩
          · rintro ⟨c2, sz2, o2, m2, hc2, _, hs2, hsz2, _, _, _⟩
            obtain rfl : c = c2 := Option.some_inj.mp hc2
            obtain rfl : sz = sz2 := Option.some_inj.mp hs2
            exact absurd hsz2 htb
    · simp only [hct, if_false]
      constructor
      · rintro ⟨⟩
      · rintro ⟨c2, sz2, o2, m2, hc2, hct2, _, _, _, _, _⟩
        obtain rfl : c = c2 := Option.some_inj.mp hc2
        exact absurd hct2 hct

/-- Membership in a scan result, fully unfolded. -/
lemma mem_search_files_iff (env : Env) (fmt : ℚ → String)
    (paths : List Root) (d : ℕ) (s : ℚ) (u : String) (rec : FileRecord) :
    rec ∈ search_files env fmt paths d s u ↔
      ∃ r ∈ paths, r.isDir = true ∧ ∃ f ∈ r.files,
        process_file env fmt (env.now - ((d : ℚ) * 24 * 3600))
          (s * unit_conversion_get u) u f = some rec := by
  rw [search_files_eq_flatMap, List.mem_flatMap]
  constructor
  · rintro ⟨r, hr, hrec⟩
    unfold scan_root at hrec
    by_cases hdir : r.isDir
    · rw [if_pos hdir, List.mem_filterMap] at hrec
      obtain ⟨f, hf, hpf⟩ := hrec
      exact ⟨r, hr, hdir, f, hf, hpf⟩
    · simp [hdir] at hrec
  · rintro ⟨r, hr, hdir, f, hf, hpf⟩
    exact ⟨r, hr, by
      unfold scan_root
      rw [if_pos hdir, List.mem_filterMap]
      exact ⟨f, hf, hpf⟩⟩

/-! ### Helper lemmas about unit conversion and `process_file` -/

lemma unit_conversion_get_eq_of_some {u : String} {m : ℚ}
    (h : unit_conversion u = some m) : unit_conversion_get u = m := by
  simp [unit_conversion_get, h]

lemma unit_conversion_pos {u : String} {m : ℚ}
    (h : unit_conversion u = some m) : 0 < m := by
  unfold unit_conversion at h
  split_ifs at h <;> simp_all <;> norm_num [← h]

lemma unit_conversion_get_pos (u : String) : 0 < unit_conversion_get u := by
  unfold unit_conversion_get
  cases h : unit_conversion u with
  | none => norm_num
  | some m => simpa using unit_conversion_pos h

lemma unit_conversion_none {u : String} (hB : u ≠ "B") (hKB : u ≠ "KB")
    (hMB : u ≠ "MB") (hGB : u ≠ "GB") : unit_conversion u = none := by
  unfold unit_conversion
  simp [hB, hKB, hMB, hGB]

/-- A file whose timestamp or size read raises is skipped: the `try`
body contributes nothing. -/
lemma process_file_none_of_read_fail (env : Env) (fmt : ℚ → String)
    (ct tb : ℚ) (u : String) (file : FileInfo)
    (h : file.c_time = none ∨ file.f_size = none) :
    process_file env fmt ct tb u file = none := by
  unfold process_file
  rcases h with h | h
  · rw [h]
  · cases hc : file.c_time with
    | none => rfl
    | some c =>
      by_cases hct : c ≥ ct
      · simp [hct, h]
      · simp [hct]

/-- A file with an unresolvable unit selector is skipped: the
`unit_conversion[size_unit]` subscript raises inside the guard. -/
lemma process_file_none_of_unit_none (env : Env) (fmt : ℚ → String)
    (ct tb : ℚ) {u : String} (hu : unit_conversion u = none)
    (file : FileInfo) : process_file env fmt ct tb u file = none := by
  unfold process_file
  cases hc : file.c_time with
  | none => rfl
  | some c =>
    by_cases hct : c ≥ ct
    · cases hs : file.f_size with
      | none => simp [hct]
      | some sz =>
        by_cases htb : sz ≥ tb
        · cases ho : get_owner env file with
          | none => simp [hct, htb, ho]
          | some o => simp [hct, htb, ho, hu]
        · simp [hct, htb]
    · simp [hct]

/-- Loosening the cutoff and the byte threshold preserves emission,
with the very same record. -/
lemma process_file_mono (env : Env) (fmt : ℚ → String)
    {ct₁ tb₁ ct₂ tb₂ : ℚ} (hct : ct₂ ≤ ct₁) (htb : tb₂ ≤ tb₁)
    (u : String) (file : FileInfo) (rec : FileRecord)
    (h : process_file env fmt ct₁ tb₁ u file = some rec) :
    process_file env fmt ct₂ tb₂ u file = some rec := by
  rw [process_file_eq_some_iff] at h ⊢
  obtain ⟨c, sz, o, m, hc, hc1, hs, hs1, ho, hm, hrec⟩ := h
  exact ⟨c, sz, o, m, hc, le_trans hct hc1, hs, le_trans htb hs1, ho, hm, hrec⟩

/-- The emitted path does not depend on the unit selector, as long as
both selectors resolve. -/
lemma process_file_map_filepath_congr (env : Env) (fmt : ℚ → String)
    (ct tb : ℚ) {u₁ u₂ : String} {m₁ m₂ : ℚ}
    (h₁ : unit_conversion u₁ = some m₁) (h₂ : unit_conversion u₂ = some m₂)
    (file : FileInfo) :
    (process_file env fmt ct tb u₁ file).map FileRecord.filepath
      = (process_file env fmt ct tb u₂ file).map FileRecord.filepath := by
  unfold process_file
  cases hc : file.c_time with
  | none => rfl
  | some c =>
    by_cases hct : c ≥ ct
    · cases hs : file.f_size with
      | none => simp [hct]
      | some sz =>
        by_cases htb : sz ≥ tb
        · cases ho : get_owner env file with
          | none => simp [hct, htb, ho]
          | some o => simp [hct, htb, ho, h₁, h₂]
        · simp [hct, htb]
    · simp [hct]

/-! ### Sublist helpers -/

lemma filterMap_sublist_mono {α β : Type _} {p q : α → Option β}
    (h : ∀ a b, p a = some b → q a = some b) :
    ∀ l : List α, List.Sublist (l.filterMap p) (l.filterMap q) := by
  intro l
  induction l with
  | nil => simp
  | cons a l ih =>
    rw [List.filterMap_cons, List.filterMap_cons]
    cases hp : p a with
    | none =>
      cases hq : q a with
      | none => exact ih
      | some b => exact List.Sublist.cons b ih
    | some b => rw [h a b hp]; exact List.Sublist.cons₂ b ih

lemma flatMap_sublist_mono {α β : Type _} {g₁ g₂ : α → List β}
    (h : ∀ a, List.Sublist (g₁ a) (g₂ a)) :
    ∀ l : List α, List.Sublist (l.flatMap g₁) (l.flatMap g₂) := by
  intro l
  induction l with
  | nil => simp
  | cons a l ih =>
    rw [List.flatMap_cons, List.flatMap_cons]
    exact List.Sublist.append (h a) ih

/-! ### Evaluation of the fixtures -/

/-- The spec's scenario, fully evaluated: only `a.txt` survives, with
`displayed_size = 2`. -/
lemma scenario_result :
    search_files env0 fmt0 [dataRoot] 7 1 "KB" = [recA] := by
  simp +decide only [search_files, unit_conversion_get, unit_conversion,
    process_file, get_owner, env0, fmt0, dataRoot, aTxt, bTxt, now0, recA,
    List.foldl_cons, List.foldl_nil]
  norm_num

/-! ### Claims -/

/-- Claim C3: scanning with threshold `X` in `MB` includes exactly the
same files, in the same order, as scanning with threshold `X * 1024` in
`KB`; and the byte multipliers are B = 1, KB = 1024, MB = 1024^2,
GB = 1024^3. -/
theorem c3_unit_round_trip (env : Env) (fmt : ℚ → String)
    (paths : List Root) (d : ℕ) (X : ℚ) :
    (search_files env fmt paths d X "MB").map FileRecord.filepath
      = (search_files env fmt paths d (X * 1024) "KB").map FileRecord.filepath
    ∧ unit_conversion "B" = some 1 ∧ unit_conversion "KB" = some 1024
    ∧ unit_conversion "MB" = some (1024 ^ 2)
    ∧ unit_conversion "GB" = some (1024 ^ 3) := by
  have hKB : unit_conversion "KB" = some 1024 := by decide
  have hMB : unit_conversion "MB" = some (1024 ^ 2) := by decide
  refine ⟨?_, by decide, hKB, hMB, by decide⟩
  rw [search_files_eq_flatMap, search_files_eq_flatMap,
    unit_conversion_get_eq_of_some hMB, unit_conversion_get_eq_of_some hKB]
  have htb : X * 1024 ^ 2 = X * 1024 * 1024 := by ring
  rw [htb, List.map_flatMap, List.map_flatMap]
  congr 1
  funext r
  unfold scan_root
  by_cases hr : r.isDir
  · rw [if_pos hr, if_pos hr, List.map_filterMap, List.map_filterMap]
    congr 1
    funext file
    exact process_file_map_filepath_congr env fmt _ _ hMB hKB file
  · rw [if_neg hr, if_neg hr]

/-- Claim C4: every emitted record satisfies, as measured at the moment
its file was examined, both the age predicate (raw timestamp at least
the cutoff) and the size predicate (byte size, i.e. displayed size
times the unit multiplier, at least the byte threshold). -/
theorem c4_emitted_invariant (env : Env) (fmt : ℚ → String)
    (paths : List Root) (d : ℕ) (s : ℚ) (u : String) (rec : FileRecord)
    (hrec : rec ∈ search_files env fmt paths d s u) :
    env.now - ((d : ℚ) * 24 * 3600) ≤ rec.c_time ∧
    ∃ m, unit_conversion u = some m ∧ s * m ≤ rec.displayed_size * m := by
  rw [mem_search_files_iff] at hrec
  obtain ⟨r, hr, hdir, f, hf, hpf⟩ := hrec
  rw [process_file_eq_some_iff] at hpf
  obtain ⟨c, sz, o, m, hc, hcct, hs, hstb, ho, hm, rfl⟩ := hpf
  refine ⟨hcct, m, hm, ?_⟩
  have hm0 : m ≠ 0 := ne_of_gt (unit_conversion_pos hm)
  show s * m ≤ sz / m * m
  rw [div_mul_cancel₀ _ hm0]
  rwa [unit_conversion_get_eq_of_some hm] at hstb

/-- Claim C4, witness: the scenario record satisfies both predicates. -/
theorem c4_emitted_invariant_witness :
    recA ∈ search_files env0 fmt0 [dataRoot] 7 1 "KB" ∧
    (env0.now - ((7 : ℕ) : ℚ) * 24 * 3600 ≤ recA.c_time ∧
      ∃ m, unit_conversion "KB" = some m ∧
        1 * m ≤ recA.displayed_size * m) :=
  ⟨by rw [scenario_result]; exact List.mem_singleton_self recA,
   c4_emitted_invariant env0 fmt0 [dataRoot] 7 1 "KB" recA
     (by rw [scenario_result]; exact List.mem_singleton_self recA)⟩

/-- Claim C5: for an included file, `displayed_size` is the byte size
divided by the selected unit multiplier; and the spec's scenario
(`a.txt` 3 days old and 2048 bytes, `b.txt` 30 days old and 2048 bytes,
`maxAgeDays = 7`, `minSize = 1`, unit `KB`) returns exactly one record,
for `a.txt`, with `displayed_size = 2`. -/
theorem c5_size_in_unit :
    (∀ (env : Env) (fmt : ℚ → String) (paths : List Root) (d : ℕ) (s : ℚ)
      (u : String) (rec : FileRecord),
      rec ∈ search_files env fmt paths d s u →
      ∃ r ∈ paths, ∃ f ∈ r.files, ∃ sz m, f.f_size = some sz ∧
        unit_conversion u = some m ∧ rec.filepath = f.filepath ∧
        rec.displayed_size = sz / m) ∧
    search_files env0 fmt0 [dataRoot] 7 1 "KB" = [recA] ∧
    recA.filepath = "/data/a.txt" ∧ recA.displayed_size = 2 := by
  refine ⟨?_, scenario_result, rfl, rfl⟩
  intro env fmt paths d s u rec hrec
  rw [mem_search_files_iff] at hrec
  obtain ⟨r, hr, hdir, f, hf, hpf⟩ := hrec
  rw [process_file_eq_some_iff] at hpf
  obtain ⟨c, sz, o, m, hc, _, hs, _, _, hm, rfl⟩ := hpf
  exact ⟨r, hr, f, hf, sz, m, hs, hm, rfl, rfl⟩

/-- Claim C5, witness: the scenario record's displayed size comes from
its byte size and the KB multiplier. -/
theorem c5_size_in_unit_witness :
    recA ∈ search_files env0 fmt0 [dataRoot] 7 1 "KB" ∧
    (∃ r ∈ [dataRoot], ∃ f ∈ r.files, ∃ sz m, f.f_size = some sz ∧
      unit_conversion "KB" = some m ∧ recA.filepath = f.filepath ∧
      recA.displayed_size = sz / m) :=
  ⟨by rw [scenario_result]; exact List.mem_singleton_self recA,
   c5_size_in_unit.1 env0 fmt0 [dataRoot] 7 1 "KB" recA
     (by rw [scenario_result]; exact List.mem_singleton_self recA)⟩

/-- Claim C6: a file whose timestamp or size read raises is skipped
silently — the scan of everything else (earlier and later files of the
same root, and the other roots) is exactly what it would have been had
the file not been there; no error reaches the caller. -/
theorem c6_skip_unreadable (env : Env) (fmt : ℚ → String) (d : ℕ) (s : ℚ)
    (u : String) (roots1 roots2 : List Root) (p : String) (dir : Bool)
    (pre post : List FileInfo) (f : FileInfo)
    (h : f.c_time = none ∨ f.f_size = none) :
    search_files env fmt (roots1 ++ ⟨p, dir, pre ++ f :: post⟩ :: roots2) d s u
      = search_files env fmt (roots1 ++ ⟨p, dir, pre ++ post⟩ :: roots2) d s u := by
  have hnone := process_file_none_of_read_fail env fmt
    (env.now - ((d : ℚ) * 24 * 3600)) (s * unit_conversion_get u) u f h
  rw [search_files_eq_flatMap, search_files_eq_flatMap,
    List.flatMap_append, List.flatMap_append,
    List.flatMap_cons, List.flatMap_cons]
  simp only [scan_root]
  by_cases hdir : dir
  · simp [hdir, List.filterMap_append, List.filterMap_cons, hnone]
  · simp [hdir]

/-- Claim C6, witness: a vanished file in the middle of `/data` leaves
the scan of `a.txt` and `b.txt` unchanged. -/
theorem c6_skip_unreadable_witness :
    (ghostTxt.c_time = none ∨ ghostTxt.f_size = none) ∧
    search_files env0 fmt0 [⟨"/data", true, [aTxt, ghostTxt, bTxt]⟩] 7 1 "KB"
      = search_files env0 fmt0 [⟨"/data", true, [aTxt, bTxt]⟩] 7 1 "KB" :=
  ⟨Or.inl rfl,
   c6_skip_unreadable env0 fmt0 7 1 "KB" [] [] "/data" true
     [aTxt] [bTxt] ghostTxt (Or.inl rfl)⟩

/-- Claim C7: an empty root list gives an empty result; a root list of
only invalid roots gives an empty result; and an invalid root anywhere
in the list is skipped without affecting the other roots. No error is
raised in any of these cases. -/
theorem c7_invalid_roots (env : Env) (fmt : ℚ → String) (d : ℕ) (s : ℚ)
    (u : String) :
    search_files env fmt [] d s u = [] ∧
    (∀ paths : List Root, (∀ r ∈ paths, r.isDir = false) →
      search_files env fmt paths d s u = []) ∧
    (∀ (roots1 roots2 : List Root) (r : Root), r.isDir = false →
      search_files env fmt (roots1 ++ r :: roots2) d s u
        = search_files env fmt (roots1 ++ roots2) d s u) := by
  refine ⟨by rw [search_files_eq_flatMap]; rfl, ?_, ?_⟩
  · intro paths h
    rw [search_files_eq_flatMap, List.flatMap_eq_nil_iff]
    intro r hr
    simp [scan_root, h r hr]
  · intro roots1 roots2 r hr
    rw [search_files_eq_flatMap, search_files_eq_flatMap,
      List.flatMap_append, List.flatMap_append, List.flatMap_cons]
    have hempty : scan_root env fmt (env.now - ((d : ℚ) * 24 * 3600))
        (s * unit_conversion_get u) u r = [] := by
      simp [scan_root, hr]
    rw [hempty, List.nil_append]

/-- Claim C7, witness: a single non-directory root yields the empty
result. -/
theorem c7_invalid_roots_witness :
    badRoot.isDir = false ∧
    search_files env0 fmt0 [badRoot] 7 1 "KB" = [] :=
  ⟨rfl, (c7_invalid_roots env0 fmt0 7 1 "KB").2.1 [badRoot]
    (by intro r hr; rw [List.mem_singleton] at hr; rw [hr]; rfl)⟩

/-- Claim C8: the result decomposes as the records of an earlier block
of roots followed by the records of a later block (so records from an
earlier root precede those from a later root), and over one valid root
the result is exactly one record per qualifying file, in traversal
order (`filterMap` of the per-file step over the root's files). -/
theorem c8_traversal_order (env : Env) (fmt : ℚ → String) (d : ℕ) (s : ℚ)
    (u : String) (roots1 roots2 : List Root) (r : Root) :
    search_files env fmt (roots1 ++ roots2) d s u
      = search_files env fmt roots1 d s u
        ++ search_files env fmt roots2 d s u ∧
    (r.isDir = true →
      search_files env fmt [r] d s u
        = r.files.filterMap (process_file env fmt
            (env.now - ((d : ℚ) * 24 * 3600))
            (s * unit_conversion_get u) u)) := by
  constructor
  · rw [search_files_eq_flatMap, search_files_eq_flatMap,
      search_files_eq_flatMap, List.flatMap_append]
  · intro hdir
    rw [search_files_eq_flatMap]
    simp [scan_root, hdir]

/-- Claim C8, witness: the scenario root's records are exactly the
traversal-order `filterMap` of its files. -/
theorem c8_traversal_order_witness :
    dataRoot.isDir = true ∧
    search_files env0 fmt0 [dataRoot] 7 1 "KB"
      = dataRoot.files.filterMap (process_file env0 fmt0
          (env0.now - ((7 : ℕ) : ℚ) * 24 * 3600)
          (1 * unit_conversion_get "KB") "KB") :=
  ⟨rfl, (c8_traversal_order env0 fmt0 7 1 "KB" [] [] dataRoot).2 rfl⟩

/-- Claim C9: for a unit selector outside {B, KB, MB, GB}, the
threshold conversion falls back to a byte multiplier of 1
(`dict.get` default), every file — whatever its metadata — is dropped
inside the per-file guard (the `unit_conversion[size_unit]` subscript
raises before the record is built), and the scan returns the empty
sequence without raising. -/
theorem c9_unknown_unit (env : Env) (fmt : ℚ → String) (paths : List Root)
    (d : ℕ) (s : ℚ) (u : String) (hB : u ≠ "B") (hKB : u ≠ "KB")
    (hMB : u ≠ "MB") (hGB : u ≠ "GB") :
    unit_conversion_get u = 1 ∧
    (∀ (ct tb : ℚ) (f : FileInfo), process_file env fmt ct tb u f = none) ∧
    search_files env fmt paths d s u = [] := by
  have hu : unit_conversion u = none := unit_conversion_none hB hKB hMB hGB
  refine ⟨by simp [unit_conversion_get, hu],
    fun ct tb f => process_file_none_of_unit_none env fmt ct tb hu f, ?_⟩
  rw [search_files_eq_flatMap, List.flatMap_eq_nil_iff]
  intro r hr
  by_cases hdir : r.isDir
  · unfold scan_root
    rw [if_pos hdir, List.filterMap_eq_nil_iff]
    intro f hf
    exact process_file_none_of_unit_none env fmt _ _ hu f
  · simp [scan_root, hdir]

/-- Claim C9, witness: scanning `/data` with unit `TB` drops every
file and returns the empty sequence. -/
theorem c9_unknown_unit_witness :
    unit_conversion_get "TB" = 1 ∧
    process_file env0 fmt0 0 0 "TB" aTxt = none ∧
    search_files env0 fmt0 [dataRoot] 7 1 "TB" = [] :=
  ⟨(c9_unknown_unit env0 fmt0 [dataRoot] 7 1 "TB"
      (by decide) (by decide) (by decide) (by decide)).1,
   (c9_unknown_unit env0 fmt0 [dataRoot] 7 1 "TB"
      (by decide) (by decide) (by decide) (by decide)).2.1 0 0 aTxt,
   (c9_unknown_unit env0 fmt0 [dataRoot] 7 1 "TB"
      (by decide) (by decide) (by decide) (by decide)).2.2⟩

/-- Claim C10: over a fixed file set, the included path set is monotone
in both thresholds — raising `maxAgeDays` and lowering `minSize`
(same roots, same unit) can only add paths, never remove one. -/
theorem c10_monotone (env : Env) (fmt : ℚ → String) (paths : List Root)
    (u : String) (d₁ d₂ : ℕ) (s₁ s₂ : ℚ) (hd : d₁ ≤ d₂) (hs : s₂ ≤ s₁) :
    ∀ p ∈ (search_files env fmt paths d₁ s₁ u).map FileRecord.filepath,
      p ∈ (search_files env fmt paths d₂ s₂ u).map FileRecord.filepath := by
  have hct : env.now - ((d₂ : ℚ) * 24 * 3600)
      ≤ env.now - ((d₁ : ℚ) * 24 * 3600) := by
    have hdq : (d₁ : ℚ) ≤ (d₂ : ℚ) := by exact_mod_cast hd
    linarith
  have htb : s₂ * unit_conversion_get u ≤ s₁ * unit_conversion_get u :=
    mul_le_mul_of_nonneg_right hs (le_of_lt (unit_conversion_get_pos u))
  have hsub : List.Sublist (search_files env fmt paths d₁ s₁ u)
      (search_files env fmt paths d₂ s₂ u) := by
    rw [search_files_eq_flatMap, search_files_eq_flatMap]
    apply flatMap_sublist_mono
    intro r
    unfold scan_root
    by_cases hdir : r.isDir
    · rw [if_pos hdir, if_pos hdir]
      apply filterMap_sublist_mono
      intro f rec hpf
      exact process_file_mono env fmt hct htb u f rec hpf
    · rw [if_neg hdir, if_neg hdir]
  exact fun p hp => (hsub.map FileRecord.filepath).subset hp

/-- Claim C10, witness: `a.txt` stays included when the age threshold
grows from 7 to 30 days at the same size threshold. -/
theorem c10_monotone_witness :
    7 ≤ 30 ∧ (1 : ℚ) ≤ 1 ∧
    "/data/a.txt"
      ∈ (search_files env0 fmt0 [dataRoot] 7 1 "KB").map FileRecord.filepath ∧
    "/data/a.txt"
      ∈ (search_files env0 fmt0 [dataRoot] 30 1 "KB").map FileRecord.filepath :=
  ⟨by decide, le_refl 1,
   by rw [scenario_result]; exact List.mem_singleton_self _,
   c10_monotone env0 fmt0 [dataRoot] "KB" 7 30 1 1 (by decide) (le_refl 1)
     "/data/a.txt"
     (by rw [scenario_result]; exact List.mem_singleton_self _)⟩

/-- Claim C1, counterexample: `c.txt` sits under a valid root, its
timestamp and size are readable and both pass the 7-day / 1 KB filter,
yet the scan returns nothing — the owner lookup raises (uid with no
passwd entry on a Unix system with `pwd`), so the `except` guard drops
the file. The claimed inclusion iff fails in the "if" direction. -/
theorem c1_counterexample :
    (∃ c, cTxt.c_time = some c ∧ env0.now - ((7 : ℕ) : ℚ) * 24 * 3600 ≤ c) ∧
    (∃ sz, cTxt.f_size = some sz ∧ (1 : ℚ) * unit_conversion_get "KB" ≤ sz) ∧
    search_files env0 fmt0 [⟨"/data", true, [cTxt]⟩] 7 1 "KB" = [] := by
  refine ⟨⟨now0 - 3 * 86400, rfl, by norm_num [env0, now0]⟩,
    ⟨2048, rfl, by simp +decide only [unit_conversion_get, unit_conversion]; norm_num⟩, ?_⟩
  simp +decide only [search_files, unit_conversion_get, unit_conversion,
    process_file, get_owner, env0, fmt0, cTxt, now0,
    List.foldl_cons, List.foldl_nil]
  norm_num

/-- Claim C1, amended: for a file under a valid root whose timestamp
and size are readable, provided the unit selector resolves and the
owner lookup does not raise, the scan includes the file (one record
with its path, raw timestamp, owner and converted size) if and only if
its timestamp is at least the cutoff and its byte size is at least the
byte threshold; both boundaries inclusive. -/
theorem c1_included_iff (env : Env) (fmt : ℚ → String) (paths : List Root)
    (d : ℕ) (s : ℚ) (u : String) (r : Root) (f : FileInfo)
    (c sz m : ℚ) (o : String)
    (hr : r ∈ paths) (hdir : r.isDir = true) (hf : f ∈ r.files)
    (hc : f.c_time = some c) (hsz : f.f_size = some sz)
    (hm : unit_conversion u = some m) (ho : get_owner env f = some o) :
    (∃ rec ∈ search_files env fmt paths d s u,
        rec.filepath = f.filepath ∧ rec.c_time = c ∧
        rec.displayed_size = sz / m ∧ rec.owner = o) ↔
      (env.now - ((d : ℚ) * 24 * 3600) ≤ c ∧ s * m ≤ sz) := by
  have hm0 : m ≠ 0 := ne_of_gt (unit_conversion_pos hm)
  constructor
  · rintro ⟨rec, hrec, hpath, hct, hds, hown⟩
    rw [mem_search_files_iff] at hrec
    obtain ⟨r2, hr2, hdir2, g, hg, hpf⟩ := hrec
    rw [process_file_eq_some_iff] at hpf
    obtain ⟨c2, sz2, o2, m2, hc2, hcct2, hs2, hstb2, ho2, hm2, rfl⟩ := hpf
    obtain rfl : m = m2 := by rw [hm] at hm2; exact Option.some_inj.mp hm2
    have hcc : c2 = c := hct
    have hdseq : sz2 / m = sz / m := hds
    have hszeq : sz2 = sz := by
      have h2 : sz2 / m * m = sz / m * m := by rw [hdseq]
      rwa [div_mul_cancel₀ _ hm0, div_mul_cancel₀ _ hm0] at h2
    subst hcc
    subst hszeq
    rw [unit_conversion_get_eq_of_some hm] at hstb2
    exact ⟨hcct2, hstb2⟩
  · rintro ⟨hcct, hstb⟩
    refine ⟨⟨f.filepath, fmt c, o, sz / m, c⟩, ?_, rfl, rfl, rfl, rfl⟩
    rw [mem_search_files_iff]
    refine ⟨r, hr, hdir, f, hf, ?_⟩
    rw [process_file_eq_some_iff]
    exact ⟨c, sz, o, m, hc, hcct, hsz,
      by rwa [unit_conversion_get_eq_of_some hm], ho, hm, rfl⟩

/-- Claim C1 (amended), witness: `a.txt` of the scenario, whose owner
resolves to `alice`, is included exactly because it passes both
predicates. -/
theorem c1_included_iff_witness :
    get_owner env0 aTxt = some "alice" ∧
    unit_conversion "KB" = some 1024 ∧
    (∃ rec ∈ search_files env0 fmt0 [dataRoot] 7 1 "KB",
        rec.filepath = aTxt.filepath ∧ rec.c_time = now0 - 3 * 86400 ∧
        rec.displayed_size = 2048 / 1024 ∧ rec.owner = "alice") :=
  ⟨rfl, by decide,
   (c1_included_iff env0 fmt0 [dataRoot] 7 1 "KB" dataRoot aTxt
      (now0 - 3 * 86400) 2048 1024 "alice"
      (List.mem_singleton_self _) rfl (by simp [dataRoot]) rfl rfl
      (by decide) rfl).mpr
    ⟨by norm_num [env0, now0], by norm_num⟩⟩

/-- Claim C2, counterexample: `d.txt` passes both filters, its owner
resolution raises (Unix with `pwd`, uid absent from passwd), and the
scan emits no record at all — not a record with a placeholder owner as
the claim states. -/
theorem c2_counterexample :
    get_owner env0 dTxt = none ∧
    (∃ c, dTxt.c_time = some c ∧ env0.now - ((7 : ℕ) : ℚ) * 24 * 3600 ≤ c) ∧
    (∃ sz, dTxt.f_size = some sz ∧ (1 : ℚ) * unit_conversion_get "KB" ≤ sz) ∧
    search_files env0 fmt0 [⟨"/data", true, [dTxt]⟩] 7 1 "KB" = [] := by
  refine ⟨rfl, ⟨now0 - 1 * 86400, rfl, by norm_num [env0, now0]⟩,
    ⟨4096, rfl, by simp +decide only [unit_conversion_get, unit_conversion]; norm_num⟩, ?_⟩
  simp +decide only [search_files, unit_conversion_get, unit_conversion,
    process_file, get_owner, env0, fmt0, dTxt, now0,
    List.foldl_cons, List.foldl_nil]
  norm_num

/-- Claim C2, amended: for a file that passes both filters under a
valid root, the scan never raises on owner resolution, and: on Windows
the record is emitted with the placeholder owner
`Unknown-Owner-Windows`; on a non-Windows platform without the `pwd`
module it is emitted with the placeholder `Unknown-Owner-UNIX`; but on
a non-Windows platform with `pwd` available, a raising owner lookup
makes the file silently dropped — no record is emitted for it. -/
theorem c2_owner_fallback (env : Env) (fmt : ℚ → String) (p : String)
    (d : ℕ) (s : ℚ) (u : String) (f : FileInfo) (c sz m : ℚ)
    (hc : f.c_time = some c) (hcct : env.now - ((d : ℚ) * 24 * 3600) ≤ c)
    (hsz : f.f_size = some sz) (hstb : s * m ≤ sz)
    (hm : unit_conversion u = some m) :
    (env.platform_system = "Windows" →
      search_files env fmt [⟨p, true, [f]⟩] d s u
        = [⟨f.filepath, fmt c, "Unknown-Owner-Windows", sz / m, c⟩]) ∧
    (env.platform_system ≠ "Windows" → env.pwd_available = false →
      search_files env fmt [⟨p, true, [f]⟩] d s u
        = [⟨f.filepath, fmt c, "Unknown-Owner-UNIX", sz / m, c⟩]) ∧
    (env.platform_system ≠ "Windows" → env.pwd_available = true →
      f.owner_lookup = none →
      search_files env fmt [⟨p, true, [f]⟩] d s u = []) := by
  have hthr : s * unit_conversion_get u ≤ sz := by
    rwa [unit_conversion_get_eq_of_some hm]
  refine ⟨?_, ?_, ?_⟩
  · intro hwin
    rw [search_files_eq_flatMap]
    have hpf : process_file env fmt (env.now - ((d : ℚ) * 24 * 3600))
        (s * unit_conversion_get u) u f
        = some ⟨f.filepath, fmt c, "Unknown-Owner-Windows", sz / m, c⟩ := by
      rw [process_file_eq_some_iff]
      exact ⟨c, sz, "Unknown-Owner-Windows", m, hc, hcct, hsz, hthr,
        by simp [get_owner, hwin], hm, rfl⟩
    simp [scan_root, List.filterMap_cons, hpf]
  · intro hnw hpwd
    rw [search_files_eq_flatMap]
    have hpf : process_file env fmt (env.now - ((d : ℚ) * 24 * 3600))
        (s * unit_conversion_get u) u f
        = some ⟨f.filepath, fmt c, "Unknown-Owner-UNIX", sz / m, c⟩ := by
      rw [process_file_eq_some_iff]
      exact ⟨c, sz, "Unknown-Owner-UNIX", m, hc, hcct, hsz, hthr,
        by simp [get_owner, hnw, hpwd], hm, rfl⟩
    simp [scan_root, List.filterMap_cons, hpf]
  · intro hnw hpwd hol
    rw [search_files_eq_flatMap]
    have hpf : process_file env fmt (env.now - ((d : ℚ) * 24 * 3600))
        (s * unit_conversion_get u) u f = none := by
      simp [process_file, hc, hsz, get_owner, hnw, hpwd, hol,
        ge_iff_le, hcct, hthr]
    simp [scan_root, List.filterMap_cons, hpf]

/-- Claim C2 (amended), witness: on Windows, a file exactly on both
boundaries is emitted with the placeholder owner. -/
theorem c2_owner_fallback_witness :
    envWin.platform_system = "Windows" ∧
    search_files envWin fmt0 [⟨"/edge", true, [edgeTxt]⟩] 7 1 "KB"
      = [⟨"/data/edge.txt", "", "Unknown-Owner-Windows",
          (1 : ℚ) * 1024 / 1024, now0 - ((7 : ℕ) : ℚ) * 24 * 3600⟩] :=
  ⟨rfl, (c2_owner_fallback envWin fmt0 "/edge" 7 1 "KB" edgeTxt
      (now0 - ((7 : ℕ) : ℚ) * 24 * 3600) ((1 : ℚ) * 1024) 1024
      rfl (le_refl _) rfl (le_refl _) (by decide)).1 rfl⟩
